import Mathlib

/-!
Verification development for the naramarket crawl pipeline
(`src/services/crawler.py`, `src/core/client.py`, `src/core/async_client.py`,
`src/core/utils.py`), shallowly embedded in Lean.

Python dict values that occur in crawl records are modelled by `Val`
(strings, booleans, and the nested `attributes` string-to-string dict).
Python dicts are modelled as insertion-ordered association lists with
update-in-place semantics (`dinsert`), matching `dict` assignment and
`{**item, ...}` merging.  Dates are modelled as epoch-day integers with
civil-calendar conversion mirroring `datetime.strptime`/`strftime` for the
`%Y%m%d` format.
-/

namespace Naramarket

/-- Model of a Python/JSON scalar-or-dict value as stored in crawl records. -/
inductive Val where
  | str (s : String)
  | bool (b : Bool)
  | dict (entries : List (String × String))
deriving DecidableEq, Repr

/-- Insertion-ordered association list modelling a Python dict. -/
abbrev Dict (V : Type) := List (String × V)

/-- Dict lookup (`d.get(k)`), first matching key. -/
def dget {V : Type} : Dict V → String → Option V
  | [], _ => none
  | (k', v) :: rest, k => if k' = k then some v else dget rest k

/-- Dict assignment (`d[k] = v`): updates in place if the key exists,
otherwise appends, preserving Python dict insertion order. -/
def dinsert {V : Type} : Dict V → String → V → Dict V
  | [], k, v => [(k, v)]
  | (k', v') :: rest, k, v =>
    if k' = k then (k', v) :: rest else (k', v') :: dinsert rest k v

theorem dget_dinsert_self {V : Type} (m : Dict V) (k : String) (v : V) :
    dget (dinsert m k v) k = some v := by
  induction m with
  | nil => simp [dinsert, dget]
  | cons hd tl ih =>
    obtain ⟨k', v'⟩ := hd
    by_cases h : k' = k <;> simp [dinsert, dget, h, ih]

theorem dget_dinsert_ne {V : Type} (m : Dict V) {k' k : String} (v : V)
    (h : k' ≠ k) : dget (dinsert m k' v) k = dget m k := by
  induction m with
  | nil => simp [dinsert, dget, h]
  | cons hd tl ih =>
    obtain ⟨k₀, v₀⟩ := hd
    by_cases h0 : k₀ = k'
    · subst h0
      simp [dinsert, dget, h]
    · by_cases h1 : k₀ = k
      · subst h1
        simp [dinsert, dget, h0, ih]
      · simp [dinsert, dget, h0, h1, ih]

/-! ### `sanitize_column_name` (src/core/utils.py)

The Python function applies, in order:
`re.sub(r'[^\w가-힣]', '_', name)`, `re.sub(r'_+', '_', name)`,
`name.strip('_')`, and falls back to `"unknown"` when empty.
Word characters are modelled as ASCII alphanumerics, the underscore and
Hangul syllables (U+AC00 to U+D7A3), following the character classes the
regex names. -/

/-- Character class kept unchanged by the sanitizing regex. -/
def isWordChar (c : Char) : Bool :=
  c = '_' || c.isAlphanum || (0xAC00 ≤ c.toNat && c.toNat ≤ 0xD7A3)

/-- Step 1: `re.sub(r'[^\w가-힣]', '_', name)`. -/
def underscoreNonWord (l : List Char) : List Char :=
  l.map fun c => if isWordChar c then c else '_'

/-- Step 2: `re.sub(r'_+', '_', name)` — collapse runs of underscores. -/
def collapseUnd : List Char → List Char
  | [] => []
  | c :: cs =>
    match collapseUnd cs with
    | [] => [c]
    | d :: ds => if c = '_' && d = '_' then d :: ds else c :: d :: ds

/-- Right half of `name.strip('_')`: drop trailing underscores. -/
def dropTrailingUnd : List Char → List Char
  | [] => []
  | c :: cs =>
    match dropTrailingUnd cs with
    | [] => if c = '_' then [] else [c]
    | d :: ds => c :: d :: ds

/-- Model of `sanitize_column_name` from `src/core/utils.py`. -/
def sanitize_column_name (s : String) : String :=
  let cleaned :=
    dropTrailingUnd ((collapseUnd (underscoreNonWord s.data)).dropWhile
      fun c => c = '_')
  if cleaned.isEmpty then "unknown" else String.mk cleaned

theorem isWordChar_underscore : isWordChar '_' = true := by decide

theorem collapseUnd_cons_nil {a : Char} {as : List Char}
    (h : collapseUnd as = []) : collapseUnd (a :: as) = [a] := by
  rw [collapseUnd, h]

theorem collapseUnd_cons_cons {a d : Char} {as ds : List Char}
    (h : collapseUnd as = d :: ds) :
    collapseUnd (a :: as) =
      if a = '_' && d = '_' then d :: ds else a :: d :: ds := by
  rw [collapseUnd, h]

theorem dropTrailingUnd_cons_nil {a : Char} {as : List Char}
    (h : dropTrailingUnd as = []) :
    dropTrailingUnd (a :: as) = if a = '_' then [] else [a] := by
  rw [dropTrailingUnd, h]

theorem dropTrailingUnd_cons_cons {a d : Char} {as ds : List Char}
    (h : dropTrailingUnd as = d :: ds) :
    dropTrailingUnd (a :: as) = a :: d :: ds := by
  rw [dropTrailingUnd, h]

theorem mem_underscoreNonWord {l : List Char} {c : Char}
    (h : c ∈ underscoreNonWord l) : isWordChar c = true := by
  simp only [underscoreNonWord, List.mem_map] at h
  obtain ⟨a, -, ha⟩ := h
  by_cases hw : isWordChar a
  · rw [if_pos hw] at ha
    rw [← ha]
    exact hw
  · rw [if_neg hw] at ha
    rw [← ha]
    exact isWordChar_underscore

theorem underscoreNonWord_eq_self {l : List Char}
    (h : ∀ c ∈ l, isWordChar c = true) : underscoreNonWord l = l := by
  unfold underscoreNonWord
  have : l.map (fun c => if isWordChar c then c else '_') = l.map id :=
    List.map_congr_left (fun a ha => by simp [h a ha])
  simpa using this

theorem mem_collapseUnd : ∀ {l : List Char} {c : Char}, c ∈ collapseUnd l → c ∈ l
  | [], c, h => by simp [collapseUnd] at h
  | a :: as, c, h => by
    rcases hrec : collapseUnd as with - | ⟨d, ds⟩
    · rw [collapseUnd_cons_nil hrec] at h
      simp only [List.mem_singleton] at h
      simp [h]
    · rw [collapseUnd_cons_cons hrec] at h
      by_cases hif : (a = '_' && d = '_') = true
      · rw [if_pos hif] at h
        exact List.mem_cons_of_mem _ (mem_collapseUnd (hrec ▸ h))
      · rw [if_neg hif] at h
        rcases List.mem_cons.mp h with h1 | h2
        · simp [h1]
        · exact List.mem_cons_of_mem _ (mem_collapseUnd (hrec ▸ h2))

/-- The relation stating two adjacent characters are not both underscores. -/
def NoAdjUnd (a b : Char) : Prop := ¬(a = '_' ∧ b = '_')

theorem chain'_collapseUnd : ∀ l : List Char, List.Chain' NoAdjUnd (collapseUnd l)
  | [] => List.chain'_nil
  | a :: as => by
    rcases hrec : collapseUnd as with - | ⟨d, ds⟩
    · rw [collapseUnd_cons_nil hrec]
      exact List.chain'_singleton a
    · have ih := chain'_collapseUnd as
      rw [hrec] at ih
      rw [collapseUnd_cons_cons hrec]
      by_cases hif : (a = '_' && d = '_') = true
      · rw [if_pos hif]
        exact ih
      · rw [if_neg hif]
        refine List.chain'_cons.mpr ⟨?_, ih⟩
        intro ⟨h1, h2⟩
        exact hif (by simp [h1, h2])

theorem collapseUnd_eq_self : ∀ {l : List Char}, List.Chain' NoAdjUnd l →
    collapseUnd l = l
  | [], _ => rfl
  | a :: as, h => by
    have ih : collapseUnd as = as := collapseUnd_eq_self h.tail
    rcases as with - | ⟨d, ds⟩
    · rw [collapseUnd_cons_nil ih]
    · rw [collapseUnd_cons_cons ih]
      have hR : NoAdjUnd a d := (List.chain'_cons.mp h).1
      have hif : (a = '_' && d = '_') = false := by
        by_contra hc
        simp only [Bool.not_eq_false, Bool.and_eq_true, decide_eq_true_eq] at hc
        exact hR ⟨hc.1, hc.2⟩
      rw [hif]
      simp

theorem head?_dropWhile_not {p : Char → Bool} :
    ∀ {l : List Char} {a : Char}, ((l.dropWhile p).head? = some a) → p a = false
  | [], a, h => by simp [List.dropWhile] at h
  | c :: cs, a, h => by
    rw [List.dropWhile] at h
    by_cases hc : p c
    · rw [hc] at h
      simp only at h
      exact head?_dropWhile_not h
    · rw [Bool.eq_false_iff.mpr hc] at h
      simp only [List.head?_cons, Option.some.injEq] at h
      rw [← h]
      exact Bool.eq_false_iff.mpr hc

theorem dropWhile_eq_self_of_head {p : Char → Bool} {l : List Char}
    (h : ∀ a, l.head? = some a → p a = false) : l.dropWhile p = l := by
  cases l with
  | nil => rfl
  | cons c cs =>
    rw [List.dropWhile, h c rfl]

theorem mem_dropWhile {p : Char → Bool} :
    ∀ {l : List Char} {c : Char}, c ∈ l.dropWhile p → c ∈ l
  | [], c, h => by simp [List.dropWhile] at h
  | a :: as, c, h => by
    rw [List.dropWhile] at h
    by_cases ha : p a
    · rw [ha] at h
      exact List.mem_cons_of_mem _ (mem_dropWhile h)
    · rw [Bool.eq_false_iff.mpr ha] at h
      exact h

theorem chain'_dropWhile {p : Char → Bool} :
    ∀ {l : List Char}, List.Chain' NoAdjUnd l →
      List.Chain' NoAdjUnd (l.dropWhile p)
  | [], h => h
  | a :: as, h => by
    rw [List.dropWhile]
    by_cases ha : p a
    · rw [ha]
      exact chain'_dropWhile h.tail
    · rw [Bool.eq_false_iff.mpr ha]
      exact h

theorem getLast?_dropTrailingUnd :
    ∀ {l : List Char} {a : Char}, (dropTrailingUnd l).getLast? = some a → a ≠ '_'
  | [], a, h => by simp [dropTrailingUnd] at h
  | c :: cs, a, h => by
    rcases hrec : dropTrailingUnd cs with - | ⟨d, ds⟩
    · rw [dropTrailingUnd_cons_nil hrec] at h
      by_cases hc : c = '_'
      · rw [if_pos hc] at h
        simp at h
      · rw [if_neg hc] at h
        simp only [List.getLast?_singleton, Option.some.injEq] at h
        rw [← h]
        exact hc
    · rw [dropTrailingUnd_cons_cons hrec, List.getLast?_cons_cons] at h
      exact getLast?_dropTrailingUnd (hrec ▸ h)

theorem dropTrailingUnd_eq_self :
    ∀ {l : List Char}, (∀ a, l.getLast? = some a → a ≠ '_') →
      dropTrailingUnd l = l
  | [], _ => rfl
  | [c], h => by
    have hc : c ≠ '_' := h c (List.getLast?_singleton c)
    have h0 : dropTrailingUnd ([] : List Char) = [] := rfl
    rw [dropTrailingUnd_cons_nil h0, if_neg hc]
  | c :: d :: ds, h => by
    have ih : dropTrailingUnd (d :: ds) = d :: ds :=
      dropTrailingUnd_eq_self (fun a ha => h a (by
        rw [List.getLast?_cons_cons]
        exact ha))
    rw [dropTrailingUnd_cons_cons ih]

theorem mem_dropTrailingUnd :
    ∀ {l : List Char} {c : Char}, c ∈ dropTrailingUnd l → c ∈ l
  | [], c, h => by simp [dropTrailingUnd] at h
  | a :: as, c, h => by
    rcases hrec : dropTrailingUnd as with - | ⟨d, ds⟩
    · rw [dropTrailingUnd_cons_nil hrec] at h
      by_cases ha : a = '_'
      · rw [if_pos ha] at h
        simp at h
      · rw [if_neg ha] at h
        simp only [List.mem_singleton] at h
        simp [h]
    · rw [dropTrailingUnd_cons_cons hrec] at h
      rcases List.mem_cons.mp h with h1 | h2
      · simp [h1]
      · exact List.mem_cons_of_mem _ (mem_dropTrailingUnd (hrec ▸ h2))

theorem head?_dropTrailingUnd :
    ∀ {l : List Char} {d : Char} {ds : List Char},
      dropTrailingUnd l = d :: ds → l.head? = some d
  | [], d, ds, h => by simp [dropTrailingUnd] at h
  | c :: cs, d, ds, h => by
    rcases hrec : dropTrailingUnd cs with - | ⟨e, es⟩
    · rw [dropTrailingUnd_cons_nil hrec] at h
      by_cases hc : c = '_'
      · rw [if_pos hc] at h
        exact absurd h (by simp)
      · rw [if_neg hc] at h
        simp only [List.cons.injEq] at h
        simp [h.1]
    · rw [dropTrailingUnd_cons_cons hrec] at h
      simp only [List.cons.injEq] at h
      simp [h.1]

theorem chain'_dropTrailingUnd :
    ∀ {l : List Char}, List.Chain' NoAdjUnd l →
      List.Chain' NoAdjUnd (dropTrailingUnd l)
  | [], h => h
  | c :: cs, h => by
    rcases hrec : dropTrailingUnd cs with - | ⟨d, ds⟩
    · rw [dropTrailingUnd_cons_nil hrec]
      by_cases hc : c = '_'
      · rw [if_pos hc]
        exact List.chain'_nil
      · rw [if_neg hc]
        exact List.chain'_singleton c
    · have ih : List.Chain' NoAdjUnd (dropTrailingUnd cs) := chain'_dropTrailingUnd h.tail
      rw [hrec] at ih
      rw [dropTrailingUnd_cons_cons hrec]
      have hd : cs.head? = some d := head?_dropTrailingUnd hrec
      rcases cs with - | ⟨e, es⟩
      · simp at hd
      · simp only [List.head?_cons, Option.some.injEq] at hd
        refine List.chain'_cons.mpr ⟨?_, ih⟩
        rw [← hd]
        exact (List.chain'_cons.mp h).1

/-- Characters of the cleaned form are all word characters, its first and
last characters are not underscores, and no two adjacent characters are
both underscores. -/
theorem cleaned_invariants (l : List Char) :
    (∀ c ∈ dropTrailingUnd ((collapseUnd (underscoreNonWord l)).dropWhile
        fun c => c = '_'), isWordChar c = true)
    ∧ (∀ a, (dropTrailingUnd ((collapseUnd (underscoreNonWord l)).dropWhile
        fun c => c = '_')).head? = some a → a ≠ '_')
    ∧ (∀ a, (dropTrailingUnd ((collapseUnd (underscoreNonWord l)).dropWhile
        fun c => c = '_')).getLast? = some a → a ≠ '_')
    ∧ List.Chain' NoAdjUnd
        (dropTrailingUnd ((collapseUnd (underscoreNonWord l)).dropWhile
          fun c => c = '_')) := by
  refine ⟨?_, ?_, ?_, ?_⟩
  · intro c hc
    exact mem_underscoreNonWord (mem_collapseUnd (mem_dropWhile
      (mem_dropTrailingUnd hc)))
  · intro a ha
    rcases hrec : dropTrailingUnd ((collapseUnd (underscoreNonWord l)).dropWhile
        fun c => c = '_') with - | ⟨d, ds⟩
    · rw [hrec] at ha
      simp at ha
    · rw [hrec] at ha
      simp only [List.head?_cons, Option.some.injEq] at ha
      subst ha
      have hh := head?_dropTrailingUnd hrec
      have hnot := head?_dropWhile_not (p := fun c => decide (c = '_')) hh
      intro hcon
      rw [hcon] at hnot
      simp at hnot
  · intro a ha
    exact getLast?_dropTrailingUnd ha
  · exact chain'_dropTrailingUnd (chain'_dropWhile (chain'_collapseUnd _))

/-- Intermediate cleaned form of a column name before the empty fallback. -/
def cleanedForm (s : String) : List Char :=
  dropTrailingUnd ((collapseUnd (underscoreNonWord s.data)).dropWhile
    fun c => c = '_')

theorem sanitize_column_name_eq (s : String) :
    sanitize_column_name s =
      if (cleanedForm s).isEmpty then "unknown" else String.mk (cleanedForm s) :=
  rfl

theorem cleanedForm_invariants (s : String) :
    (∀ c ∈ cleanedForm s, isWordChar c = true)
    ∧ (∀ a, (cleanedForm s).head? = some a → a ≠ '_')
    ∧ (∀ a, (cleanedForm s).getLast? = some a → a ≠ '_')
    ∧ List.Chain' NoAdjUnd (cleanedForm s) :=
  cleaned_invariants s.data

theorem sanitize_eq_of_clean {l : List Char} (hne : l ≠ [])
    (hw : ∀ c ∈ l, isWordChar c = true)
    (hh : ∀ a, l.head? = some a → a ≠ '_')
    (hl : ∀ a, l.getLast? = some a → a ≠ '_')
    (hch : List.Chain' NoAdjUnd l) :
    sanitize_column_name (String.mk l) = String.mk l := by
  unfold sanitize_column_name
  have h1 : underscoreNonWord (String.mk l).data = l := underscoreNonWord_eq_self hw
  have h2 : collapseUnd l = l := collapseUnd_eq_self hch
  have h3 : l.dropWhile (fun c => c = '_') = l := by
    refine dropWhile_eq_self_of_head ?_
    intro a ha
    have := hh a ha
    simp [this]
  have h4 : dropTrailingUnd l = l := dropTrailingUnd_eq_self hl
  simp only [h1, h2, h3, h4]
  rw [if_neg (by simpa using hne)]

/-- C10: `sanitize_column_name` (modelled as a total Lean function, hence
deterministic on every string input) is idempotent and never returns the
empty string: its result is either the literal `"unknown"` or a non-empty
string whose characters are all word characters (ASCII alphanumerics,
underscore, or Hangul syllables) with no leading, no trailing, and no two
consecutive underscores. -/
theorem claim_C10_sanitize_column_name (s : String) :
    sanitize_column_name (sanitize_column_name s) = sanitize_column_name s
    ∧ sanitize_column_name s ≠ ""
    ∧ (sanitize_column_name s = "unknown"
      ∨ ((∀ c ∈ (sanitize_column_name s).data, isWordChar c = true)
        ∧ (∀ a, (sanitize_column_name s).data.head? = some a → a ≠ '_')
        ∧ (∀ a, (sanitize_column_name s).data.getLast? = some a → a ≠ '_')
        ∧ List.Chain' NoAdjUnd (sanitize_column_name s).data)) := by
  obtain ⟨hw, hh, hl, hch⟩ := cleanedForm_invariants s
  by_cases hempty : (cleanedForm s).isEmpty
  · have hs : sanitize_column_name s = "unknown" := by
      rw [sanitize_column_name_eq, if_pos hempty]
    refine ⟨?_, ?_, Or.inl hs⟩
    · rw [hs]
      decide
    · rw [hs]
      decide
  · have hne : cleanedForm s ≠ [] := by
      simpa [List.isEmpty_iff] using hempty
    have hs : sanitize_column_name s = String.mk (cleanedForm s) := by
      rw [sanitize_column_name_eq, if_neg hempty]
    have hdata : (sanitize_column_name s).data = cleanedForm s := by
      rw [hs]
    refine ⟨?_, ?_, Or.inr ?_⟩
    · rw [hs]
      exact sanitize_eq_of_clean hne hw hh hl hch
    · rw [hs]
      intro hcon
      exact hne (by simpa using congrArg String.data hcon)
    · rw [hdata]
      exact ⟨hw, hh, hl, hch⟩

/-- Witness for C10 at the concrete input `"a--b!"`. -/
theorem claim_C10_witness :
    sanitize_column_name (sanitize_column_name "a--b!") =
      sanitize_column_name "a--b!"
    ∧ sanitize_column_name "a--b!" ≠ ""
    ∧ sanitize_column_name "a--b!" = "a_b" :=
  ⟨(claim_C10_sanitize_column_name "a--b!").1,
    (claim_C10_sanitize_column_name "a--b!").2.1, by decide⟩

/-! ### Date model

Python `datetime` values (at day granularity, as used by the crawler) are
modelled as epoch-day integers; `timedelta(days=n)` arithmetic is integer
arithmetic.  `strftime(DATE_FMT)` / `strptime(_, DATE_FMT)` with
`DATE_FMT = "%Y%m%d"` are modelled as conversion to and from `YYYYMMDD`
numerals via the standard civil-calendar algorithms (valid for positive
years, which covers every date the crawler can handle). -/

/-- Epoch-day number of a civil date (days since 1970-01-01). -/
def toEpochDay (y m d : ℤ) : ℤ :=
  let y' := if m ≤ 2 then y - 1 else y
  let era := y' / 400
  let yoe := y' - era * 400
  let mp := if m > 2 then m - 3 else m + 9
  let doy := (153 * mp + 2) / 5 + d - 1
  let doe := yoe * 365 + yoe / 4 - yoe / 100 + doy
  era * 146097 + doe - 719468

/-- Civil date (year, month, day) of an epoch-day number. -/
def ofEpochDay (t : ℤ) : ℤ × ℤ × ℤ :=
  let z := t + 719468
  let era := z / 146097
  let doe := z - era * 146097
  let yoe := (doe - doe / 1460 + doe / 36524 - doe / 146096) / 365
  let y := yoe + era * 400
  let doy := doe - (365 * yoe + yoe / 4 - yoe / 100)
  let mp := (5 * doy + 2) / 153
  let d := doy - (153 * mp + 2) / 5 + 1
  let m := if mp < 10 then mp + 3 else mp - 9
  (if m ≤ 2 then y + 1 else y, m, d)

/-- Model of `date.strftime("%Y%m%d")` as a `YYYYMMDD` numeral. -/
def strfDate (t : ℤ) : ℤ :=
  let c := ofEpochDay t
  c.1 * 10000 + c.2.1 * 100 + c.2.2

/-- Model of `datetime.strptime(s, "%Y%m%d")` from a `YYYYMMDD` numeral. -/
def strpDate (s : ℤ) : ℤ :=
  toEpochDay (s / 10000) (s / 100 % 100) (s % 100)

/-! ### Window planner (`_crawl_windows_to_temp`, src/services/crawler.py)

The loop walks `current_end` backward from the anchor end date, emitting
windows `[max(current_end - (window_days - 1), start_date), current_end]`
while `current_end > start_date`, subject to the runtime budget (modelled
as a predicate on the iteration count) and the window-count budget.  The
per-window page crawl is modelled separately (`crawlWindow` below); this
loop records the window bounds handed to it. -/

/-- Completion fields of the dict returned by `_crawl_windows_to_temp`. -/
structure WindowsPlanResult where
  windows : List (ℤ × ℤ)
  windows_processed : ℕ
  incomplete : Bool
  remaining_days : ℤ
  next_anchor_end_date : Option ℤ
  covered_days : ℤ
deriving DecidableEq, Repr

/-- The windowing loop of `_crawl_windows_to_temp`.  Returns the windows
emitted (as epoch-day pairs, in order), the final `current_end`, and the
final `windows_processed` counter.  `fuel` bounds the iterations; the
callers supply enough fuel for the loop to reach its Python exit
condition whenever `windowDays ≥ 1`. -/
def crawlWindowsLoop (startD windowDays : ℤ) (maxWindowsPerCall : ℕ)
    (timeUp : ℕ → Bool) :
    ℕ → ℤ → ℕ → List (ℤ × ℤ) → List (ℤ × ℤ) × ℤ × ℕ
  | 0, currentEnd, processed, acc => (acc, currentEnd, processed)
  | fuel + 1, currentEnd, processed, acc =>
    if currentEnd > startD then
      if timeUp processed then (acc, currentEnd, processed)
      else if maxWindowsPerCall > 0 ∧ processed ≥ maxWindowsPerCall then
        (acc, currentEnd, processed)
      else
        let currentStart := max (currentEnd - (windowDays - 1)) startD
        crawlWindowsLoop startD windowDays maxWindowsPerCall timeUp fuel
          (currentStart - 1) (processed + 1) (acc ++ [(currentStart, currentEnd)])
    else (acc, currentEnd, processed)

/-- Model of `_crawl_windows_to_temp` (window planning and completion
bookkeeping; the per-window crawling itself never fails and does not
influence these fields).  `anchorEnd` is the epoch day of the resolved end
date, `totalDays`/`windowDays` mirror the Python ints, `timeUp n` models
`time.time() - start_time > max_runtime_sec` being checked before the
`(n+1)`-th window. -/
def crawlWindowsToTemp (totalDays windowDays anchorEnd : ℤ)
    (maxWindowsPerCall : ℕ) (timeUp : ℕ → Bool) : WindowsPlanResult :=
  let endD := anchorEnd
  let startD := endD - (totalDays - 1)
  let out := crawlWindowsLoop startD windowDays maxWindowsPerCall timeUp
    ((endD - startD).toNat + 1) endD 0 []
  let currentEnd := out.2.1
  let covered := if currentEnd < endD then endD - currentEnd else 0
  let remaining := max (currentEnd - startD) 0
  let incomplete : Bool := remaining > 0
  { windows := out.1
    windows_processed := out.2.2
    incomplete := incomplete
    remaining_days := remaining
    next_anchor_end_date := if incomplete then some (strfDate currentEnd) else none
    covered_days := covered }

/-- C1 (failing input): with `totalDays = 6`, `windowDays = 5`,
`anchorEndDate = 2024-01-06` and no budgets, the loop of
`_crawl_windows_to_temp` runs to completion but emits only the window
`[2024-01-02, 2024-01-06]`: the start date `2024-01-01` lies in the
requested inclusive range yet is covered by no window, and the run still
reports `incomplete = false`.  The generated windows therefore do not
partition `[startDate, endDate]`, contradicting the claim (the loop
condition `current_end > start_date` drops the final one-day window
whenever `windowDays` divides `totalDays - 1`). -/
theorem claim_C1_window_gap_failing_input :
    (crawlWindowsToTemp 6 5 (strpDate 20240106) 0 (fun _ => false)).windows
      = [(toEpochDay 2024 1 2, toEpochDay 2024 1 6)]
    ∧ (crawlWindowsToTemp 6 5 (strpDate 20240106) 0
        (fun _ => false)).incomplete = false
    ∧ strpDate 20240106 - (6 - 1) = toEpochDay 2024 1 1
    ∧ (∀ w ∈ (crawlWindowsToTemp 6 5 (strpDate 20240106) 0
        (fun _ => false)).windows,
        ¬(w.1 ≤ toEpochDay 2024 1 1 ∧ toEpochDay 2024 1 1 ≤ w.2)) := by
  decide

/-- C2: for `totalDays = 10`, `windowDays = 5`, `anchorEndDate = 2024-01-10`
and `maxWindowsPerCall = 1`, exactly the window `[2024-01-06, 2024-01-10]`
is processed and the result reports `windows_processed = 1`,
`incomplete = true`, and `next_anchor_end_date = "20240105"` (the day
before the processed window's start); without the window limit the loop
produces exactly `[2024-01-06, 2024-01-10]` then `[2024-01-01, 2024-01-05]`. -/
theorem claim_C2_continuation_scenario :
    ((crawlWindowsToTemp 10 5 (strpDate 20240110) 1 (fun _ => false)).windows.map
        (fun w => (strfDate w.1, strfDate w.2)) = [(20240106, 20240110)]
      ∧ (crawlWindowsToTemp 10 5 (strpDate 20240110) 1
          (fun _ => false)).windows_processed = 1
      ∧ (crawlWindowsToTemp 10 5 (strpDate 20240110) 1
          (fun _ => false)).incomplete = true
      ∧ (crawlWindowsToTemp 10 5 (strpDate 20240110) 1
          (fun _ => false)).next_anchor_end_date = some 20240105
      ∧ strpDate 20240105 = strpDate 20240106 - 1)
    ∧ ((crawlWindowsToTemp 10 5 (strpDate 20240110) 0 (fun _ => false)).windows.map
        (fun w => (strfDate w.1, strfDate w.2))
          = [(20240106, 20240110), (20240101, 20240105)]
      ∧ (crawlWindowsToTemp 10 5 (strpDate 20240110) 0
          (fun _ => false)).incomplete = false) := by
  decide

/-! ### Retry wrapper (`retryable` in src/core/client.py and
`_retry_request` in src/core/async_client.py)

Both wrappers share the same logic: `for attempt in range(MAX_RETRIES)`,
return on success; on exception remember it and, unless this was the last
attempt, sleep `RETRY_BACKOFF_BASE ** attempt` seconds; after the loop,
re-raise the remembered exception.  The wrapped operation is modelled as a
function from the attempt index to `Except E A`; sleeps are recorded as a
list of rational durations.  `Except.error none` models the pathological
`raise None` that Python would hit were `MAX_RETRIES` zero. -/

def MAX_RETRIES : ℕ := 3

def RETRY_BACKOFF_BASE : ℚ := 3 / 4

/-- Trace of one wrapped call: final outcome, sleeps performed between
attempts (in order), and number of attempts actually made. -/
structure RetryTrace (E A : Type) where
  outcome : Except (Option E) A
  sleeps : List ℚ
  attemptsMade : ℕ

/-- The retry loop body shared by `retryable` and `_retry_request`. -/
def retryGo {E A : Type} (f : ℕ → Except E A) (maxRetries : ℕ) :
    ℕ → ℕ → List ℚ → Option E → RetryTrace E A
  | 0, attempt, sleeps, last => ⟨Except.error last, sleeps, attempt⟩
  | fuel + 1, attempt, sleeps, _last =>
    match f attempt with
    | Except.ok a => ⟨Except.ok a, sleeps, attempt + 1⟩
    | Except.error e =>
      if attempt < maxRetries - 1 then
        retryGo f maxRetries fuel (attempt + 1)
          (sleeps ++ [RETRY_BACKOFF_BASE ^ attempt]) (some e)
      else
        retryGo f maxRetries fuel (attempt + 1) sleeps (some e)

/-- Model of a call through `retryable` / `_retry_request`. -/
def retryRun {E A : Type} (f : ℕ → Except E A) : RetryTrace E A :=
  retryGo f MAX_RETRIES MAX_RETRIES 0 [] none

/-- C3: a retried operation makes at most `MAX_RETRIES = 3` attempts;
after the first failed attempt the wrapper sleeps `0.75^0`, after the
second `0.75^1`; two failures followed by a success return the successful
result with total sleep `0.75^0 + 0.75^1`; and three failures re-raise the
last exception. -/
theorem claim_C3_retry_behavior {E A : Type} (f : ℕ → Except E A)
    (e0 e1 e2 : E) (a : A) :
    (retryRun f).attemptsMade ≤ MAX_RETRIES
    ∧ (f 0 = Except.error e0 →
        ∃ rest, (retryRun f).sleeps = RETRY_BACKOFF_BASE ^ 0 :: rest)
    ∧ (f 0 = Except.error e0 → f 1 = Except.error e1 → f 2 = Except.ok a →
        (retryRun f).outcome = Except.ok a
        ∧ (retryRun f).sleeps = [RETRY_BACKOFF_BASE ^ 0, RETRY_BACKOFF_BASE ^ 1]
        ∧ (retryRun f).sleeps.sum = RETRY_BACKOFF_BASE ^ 0 + RETRY_BACKOFF_BASE ^ 1
        ∧ (retryRun f).attemptsMade = 3)
    ∧ (f 0 = Except.error e0 → f 1 = Except.error e1 → f 2 = Except.error e2 →
        (retryRun f).outcome = Except.error (some e2)) := by
  refine ⟨?_, ?_, ?_, ?_⟩
  · unfold retryRun MAX_RETRIES retryGo
    rcases h0 : f 0 with e | a0
    · rcases h1 : f 1 with e' | a1
      · rcases h2 : f 2 with e'' | a2 <;> simp [retryGo, h0, h1, h2]
      · simp [retryGo, h0, h1]
    · simp [h0]
  · intro hz
    unfold retryRun MAX_RETRIES retryGo
    rw [hz]
    rcases h1 : f 1 with e' | a1
    · rcases h2 : f 2 with e'' | a2 <;> simp [retryGo, h1, h2]
    · simp [retryGo, h1]
  · intro h0 h1 h2
    unfold retryRun MAX_RETRIES retryGo
    rw [h0]
    simp only [retryGo, h1, h2]
    norm_num
  · intro h0 h1 h2
    unfold retryRun MAX_RETRIES retryGo
    rw [h0]
    simp [retryGo, h1, h2]

/-- Concrete operation for the C3 witness: fails twice, then returns 42. -/
def retryWitnessOp : ℕ → Except Unit ℕ :=
  fun n => if n < 2 then Except.error () else Except.ok 42

/-- Witness for C3: the concrete operation that fails twice then succeeds
returns 42 after sleeping `[1, 3/4]` (total `7/4` seconds). -/
theorem claim_C3_witness :
    (retryRun retryWitnessOp).attemptsMade ≤ MAX_RETRIES
    ∧ (retryRun retryWitnessOp).outcome = Except.ok 42
    ∧ (retryRun retryWitnessOp).sleeps = [1, 3 / 4]
    ∧ (retryRun retryWitnessOp).sleeps.sum = 7 / 4 := by
  have h := claim_C3_retry_behavior retryWitnessOp () () () 42
  have h3 := h.2.2.1 rfl rfl rfl
  refine ⟨h.1, h3.1, ?_, ?_⟩
  · rw [h3.2.1]
    norm_num [RETRY_BACKOFF_BASE]
  · rw [h3.2.2.1]
    norm_num [RETRY_BACKOFF_BASE]

/-! ### Page crawler (`_crawl_window`, src/services/crawler.py)

The list API response shape for `body["items"]` is inconsistent and
normalized by `_crawl_window`; `RawItems` enumerates the shapes the
normalization distinguishes.  The detail call for one item either raises
(after client retries) or returns a `resultList` of
`{prdctAtrbNm, prdctAtrbVl}` pairs, modelled by `DetailOutcome`. -/

def DEFAULT_MAX_PAGES : ℕ := 999

/-- Shape of the `items` field of a list API response body. -/
inductive RawItems where
  | missing
  | asList (l : List (Dict Val))
  | itemList (l : List (Dict Val))
  | itemDict (d : Dict Val)
  | plainDict (d : Dict Val)
  | scalar
deriving DecidableEq, Repr

/-- The item normalization at the top of the page loop of `_crawl_window`:
a dict with an `item` list yields that list, a dict with an `item` dict
yields a singleton, a dict without `item` yields itself as a singleton,
anything that is neither dict nor list yields the empty list. -/
def normalizeItems : RawItems → List (Dict Val)
  | RawItems.missing => []
  | RawItems.asList l => l
  | RawItems.itemList l => l
  | RawItems.itemDict d => [d]
  | RawItems.plainDict d => [d]
  | RawItems.scalar => []

/-- Outcome of `call_detail_api` for one item: an exception (after the
client retries are exhausted) or a `resultList` of name/value pairs
(an empty or missing name/value is modelled by `""`). -/
inductive DetailOutcome where
  | throws
  | returns (resultList : List (String × String))
deriving DecidableEq, Repr

/-- Folding a `resultList` into the `attributes` dict: pairs whose name
and value are both non-empty (truthy) are kept, later duplicates
overwriting earlier ones like Python dict assignment. -/
def buildAttributes (resultList : List (String × String)) : Dict String :=
  resultList.foldl
    (fun acc p => if p.1 ≠ "" ∧ p.2 ≠ "" then dinsert acc p.1 p.2 else acc) []

/-- The record written to the intermediate NDJSON log for one item:
`{**item, "attributes": ..., "window_start": ..., "window_end": ...,
"detail_success": ...}`. -/
def mkRecord (item : Dict Val) (attrs : Dict String) (ws we : String)
    (ok : Bool) : Dict Val :=
  dinsert (dinsert (dinsert (dinsert item "attributes" (Val.dict attrs))
    "window_start" (Val.str ws)) "window_end" (Val.str we))
    "detail_success" (Val.bool ok)

/-- Processing of one listed item in `_crawl_window`: on a successful
detail call the parsed attributes are attached with `detail_success = True`
(the success branch also increments `success_details`, returned here as
the Bool component); on an exception the item is kept with empty
attributes and `detail_success = False`. -/
def processItem (item : Dict Val) (outcome : DetailOutcome) (ws we : String) :
    Dict Val × Bool :=
  match outcome with
  | DetailOutcome.throws => (mkRecord item [] ws we false, false)
  | DetailOutcome.returns rl => (mkRecord item (buildAttributes rl) ws we true, true)

/-- Per-page item loop of `_crawl_window`: every listed item produces
exactly one record, written to the log in list order. -/
def processPageItems (items : List (Dict Val)) (detail : ℕ → DetailOutcome)
    (ws we : String) : List (Dict Val × Bool) :=
  items.enum.map (fun p => processItem p.2 (detail p.1) ws we)

/-- Counters of `_crawl_window` plus the records appended to the
intermediate log. -/
structure WindowStats where
  pages : ℕ
  products : ℕ
  success_details : ℕ
  failed_details : ℕ
  records : List (Dict Val)
deriving DecidableEq, Repr

/-- Page loop of `_crawl_window`: `fetch p` models the list API call for
page `p` (`Except.error` models an exception reaching the outer
`try`/`except`, which breaks the loop), `detail p i` the detail call for
the `i`-th item of page `p`.  The loop breaks on an exception or an empty
page and is bounded by `DEFAULT_MAX_PAGES`. -/
def crawlWindowLoop (fetch : ℕ → Except Unit RawItems)
    (detail : ℕ → ℕ → DetailOutcome) (ws we : String) :
    ℕ → ℕ → WindowStats → WindowStats
  | 0, _, st => st
  | fuel + 1, page, st =>
    match fetch page with
    | Except.error _ => st
    | Except.ok raw =>
      let items := normalizeItems raw
      if items.isEmpty then st
      else
        let processed := processPageItems items (detail page) ws we
        crawlWindowLoop fetch detail ws we fuel (page + 1)
          { pages := st.pages + 1
            products := st.products + items.length
            success_details :=
              st.success_details + (processed.filter (fun p => p.2)).length
            failed_details :=
              st.failed_details + (processed.filter (fun p => !p.2)).length
            records := st.records ++ processed.map Prod.fst }

/-- Model of `_crawl_window`: pages `1, 2, …` up to `DEFAULT_MAX_PAGES`. -/
def crawlWindow (fetch : ℕ → Except Unit RawItems)
    (detail : ℕ → ℕ → DetailOutcome) (ws we : String) : WindowStats :=
  crawlWindowLoop fetch detail ws we DEFAULT_MAX_PAGES 1
    ⟨0, 0, 0, 0, []⟩

theorem length_filter_split {α : Type} (l : List α) (p : α → Bool) :
    (l.filter p).length + (l.filter (fun x => !(p x))).length = l.length := by
  induction l with
  | nil => rfl
  | cons a as ih =>
    by_cases h : p a <;> simp [List.filter, h, ← ih] <;> omega

theorem processPageItems_length (items : List (Dict Val))
    (detail : ℕ → DetailOutcome) (ws we : String) :
    (processPageItems items detail ws we).length = items.length := by
  simp [processPageItems, List.enum_length]

theorem dget_mkRecord_detail_success (item : Dict Val) (attrs : Dict String)
    (ws we : String) (ok : Bool) :
    dget (mkRecord item attrs ws we ok) "detail_success" = some (Val.bool ok) :=
  dget_dinsert_self _ _ _

theorem dget_mkRecord_attributes (item : Dict Val) (attrs : Dict String)
    (ws we : String) (ok : Bool) :
    dget (mkRecord item attrs ws we ok) "attributes" = some (Val.dict attrs) := by
  unfold mkRecord
  rw [dget_dinsert_ne _ _ (by decide), dget_dinsert_ne _ _ (by decide),
    dget_dinsert_ne _ _ (by decide)]
  exact dget_dinsert_self _ _ _

/-- Loop invariant of `crawlWindowLoop`: counters stay consistent with the
records written, and every counted page is one for which the list API call
succeeded with at least one (normalized) item. -/
theorem crawlWindowLoop_invariant (fetch : ℕ → Except Unit RawItems)
    (detail : ℕ → ℕ → DetailOutcome) (ws we : String) :
    ∀ (fuel page : ℕ) (st : WindowStats),
      st.products = st.success_details + st.failed_details →
      st.records.length = st.products →
      page = st.pages + 1 →
      (∀ p, 1 ≤ p → p ≤ st.pages →
        ∃ raw, fetch p = Except.ok raw ∧ normalizeItems raw ≠ []) →
      ((crawlWindowLoop fetch detail ws we fuel page st).products
          = (crawlWindowLoop fetch detail ws we fuel page st).success_details
            + (crawlWindowLoop fetch detail ws we fuel page st).failed_details
        ∧ (crawlWindowLoop fetch detail ws we fuel page st).records.length
          = (crawlWindowLoop fetch detail ws we fuel page st).products
        ∧ ∀ p, 1 ≤ p → p ≤ (crawlWindowLoop fetch detail ws we fuel page st).pages →
            ∃ raw, fetch p = Except.ok raw ∧ normalizeItems raw ≠ []) := by
  intro fuel
  induction fuel with
  | zero =>
    intro page st h1 h2 _ h4
    exact ⟨h1, h2, h4⟩
  | succ fuel ih =>
    intro page st h1 h2 h3 h4
    rcases hf : fetch page with u | raw
    · simp only [crawlWindowLoop, hf]
      exact ⟨h1, h2, h4⟩
    · simp only [crawlWindowLoop, hf]
      by_cases hit : (normalizeItems raw).isEmpty
      · rw [if_pos hit]
        exact ⟨h1, h2, h4⟩
      · rw [if_neg hit]
        have hlen : (processPageItems (normalizeItems raw) (detail page) ws we).length
            = (normalizeItems raw).length := processPageItems_length _ _ _ _
        have hsplit :
            ((processPageItems (normalizeItems raw) (detail page) ws we).filter
              (fun p => p.2)).length
            + ((processPageItems (normalizeItems raw) (detail page) ws we).filter
              (fun p => !p.2)).length
            = (normalizeItems raw).length := by
          rw [← hlen]
          exact length_filter_split _ _
        refine ih (page + 1) _ ?_ ?_ ?_ ?_
        · simp only
          omega
        · simp only [List.length_append, List.length_map]
          omega
        · simp only
          omega
        · simp only
          intro p hp1 hp2
          rcases Nat.lt_or_ge p (st.pages + 1) with hlt | hge
          · exact h4 p hp1 (by omega)
          · have hpeq : p = page := by omega
            refine ⟨raw, hpeq ▸ hf, ?_⟩
            intro hcon
            rw [hcon] at hit
            exact hit rfl

/-- C9: for every window, the counters returned by `_crawl_window` satisfy
`products = success_details + failed_details`, this sum equals the number
of records appended to the intermediate log for the window (one line per
listed item), and every page counted by `pages` is one whose list call
succeeded and returned at least one item. -/
theorem claim_C9_window_counters (fetch : ℕ → Except Unit RawItems)
    (detail : ℕ → ℕ → DetailOutcome) (ws we : String) :
    (crawlWindow fetch detail ws we).products
      = (crawlWindow fetch detail ws we).success_details
        + (crawlWindow fetch detail ws we).failed_details
    ∧ (crawlWindow fetch detail ws we).records.length
      = (crawlWindow fetch detail ws we).products
    ∧ ∀ p, 1 ≤ p → p ≤ (crawlWindow fetch detail ws we).pages →
        ∃ raw, fetch p = Except.ok raw ∧ normalizeItems raw ≠ [] := by
  exact crawlWindowLoop_invariant fetch detail ws we DEFAULT_MAX_PAGES 1
    ⟨0, 0, 0, 0, []⟩ rfl rfl rfl (by
      intro p hp1 hp2
      have hp0 : p ≤ 0 := hp2
      omega)

/-- Concrete list oracle for witnesses: page 1 has two items, page 2 is
empty. -/
def witnessFetch : ℕ → Except Unit RawItems :=
  fun p => if p = 1
    then Except.ok (RawItems.asList [[("a", Val.str "1")], [("b", Val.str "2")]])
    else Except.ok RawItems.missing

/-- Concrete detail oracle for witnesses: the first item of each page
throws, the rest succeed. -/
def witnessDetail : ℕ → ℕ → DetailOutcome :=
  fun _ i => if i = 0 then DetailOutcome.throws
    else DetailOutcome.returns [("k", "v")]

/-- Witness for C9 at a concrete two-item, one-page window. -/
theorem claim_C9_witness :
    (crawlWindow witnessFetch witnessDetail "s" "e").products
      = (crawlWindow witnessFetch witnessDetail "s" "e").success_details
        + (crawlWindow witnessFetch witnessDetail "s" "e").failed_details
    ∧ (crawlWindow witnessFetch witnessDetail "s" "e").records.length
      = (crawlWindow witnessFetch witnessDetail "s" "e").products
    ∧ (crawlWindow witnessFetch witnessDetail "s" "e").products = 2
    ∧ (crawlWindow witnessFetch witnessDetail "s" "e").pages = 1 :=
  ⟨(claim_C9_window_counters witnessFetch witnessDetail "s" "e").1,
   (claim_C9_window_counters witnessFetch witnessDetail "s" "e").2.1,
   by decide, by decide⟩

/-- Detail-oracle independence of the loop control flow: counters other
than the success/failure split do not depend on detail outcomes. -/
theorem crawlWindowLoop_detail_irrelevant (fetch : ℕ → Except Unit RawItems)
    (d₁ d₂ : ℕ → ℕ → DetailOutcome) (ws we : String) :
    ∀ (fuel page : ℕ) (st₁ st₂ : WindowStats),
      st₁.pages = st₂.pages → st₁.products = st₂.products →
      st₁.records.length = st₂.records.length →
      ((crawlWindowLoop fetch d₁ ws we fuel page st₁).pages
          = (crawlWindowLoop fetch d₂ ws we fuel page st₂).pages
        ∧ (crawlWindowLoop fetch d₁ ws we fuel page st₁).products
          = (crawlWindowLoop fetch d₂ ws we fuel page st₂).products
        ∧ (crawlWindowLoop fetch d₁ ws we fuel page st₁).records.length
          = (crawlWindowLoop fetch d₂ ws we fuel page st₂).records.length) := by
  intro fuel
  induction fuel with
  | zero =>
    intro page st₁ st₂ h1 h2 h3
    exact ⟨h1, h2, h3⟩
  | succ fuel ih =>
    intro page st₁ st₂ h1 h2 h3
    rcases hf : fetch page with u | raw
    · simp only [crawlWindowLoop, hf]
      exact ⟨h1, h2, h3⟩
    · simp only [crawlWindowLoop, hf]
      by_cases hit : (normalizeItems raw).isEmpty
      · rw [if_pos hit, if_pos hit]
        exact ⟨h1, h2, h3⟩
      · rw [if_neg hit, if_neg hit]
        refine ih (page + 1) _ _ ?_ ?_ ?_
        · simp only
          omega
        · simp only
          omega
        · simp only [List.length_append, List.length_map,
            processPageItems_length]
          omega

/-- C4: per-item detail failures drop nothing and abort nothing: every
listed item of a page yields exactly one record in the intermediate log; a
record whose detail fetch threw carries empty attributes and
`detail_success = false` while the others carry `detail_success = true`;
and the window's page/product/record counts are entirely independent of
which detail fetches throw. -/
theorem claim_C4_detail_failure_resilience (ws we : String) :
    (∀ (items : List (Dict Val)) (detail : ℕ → DetailOutcome),
      (processPageItems items detail ws we).length = items.length
      ∧ (∀ pr ∈ processPageItems items detail ws we,
          (pr.2 = false →
            dget pr.1 "attributes" = some (Val.dict [])
            ∧ dget pr.1 "detail_success" = some (Val.bool false))
          ∧ (pr.2 = true →
            dget pr.1 "detail_success" = some (Val.bool true))))
    ∧ (∀ (fetch : ℕ → Except Unit RawItems) (d₁ d₂ : ℕ → ℕ → DetailOutcome),
        (crawlWindow fetch d₁ ws we).pages = (crawlWindow fetch d₂ ws we).pages
        ∧ (crawlWindow fetch d₁ ws we).products
          = (crawlWindow fetch d₂ ws we).products
        ∧ (crawlWindow fetch d₁ ws we).records.length
          = (crawlWindow fetch d₂ ws we).records.length) := by
  constructor
  · intro items detail
    refine ⟨processPageItems_length _ _ _ _, ?_⟩
    intro pr hpr
    simp only [processPageItems, List.mem_map] at hpr
    obtain ⟨p, -, hp⟩ := hpr
    rcases hd : detail p.1 with - | rl
    · rw [hd] at hp
      simp only [processItem] at hp
      constructor
      · intro _hfalse
        rw [← hp]
        exact ⟨dget_mkRecord_attributes _ _ _ _ _,
          dget_mkRecord_detail_success _ _ _ _ _⟩
      · intro htrue
        rw [← hp] at htrue
        simp at htrue
    · rw [hd] at hp
      simp only [processItem] at hp
      constructor
      · intro hfalse
        rw [← hp] at hfalse
        simp at hfalse
      · intro _htrue
        rw [← hp]
        exact dget_mkRecord_detail_success _ _ _ _ _
  · intro fetch d₁ d₂
    exact crawlWindowLoop_detail_irrelevant fetch d₁ d₂ ws we
      DEFAULT_MAX_PAGES 1 ⟨0, 0, 0, 0, []⟩ ⟨0, 0, 0, 0, []⟩ rfl rfl rfl

/-- Five concrete items for the C4 witness page. -/
def fiveItems : List (Dict Val) :=
  [[("n", Val.str "1")], [("n", Val.str "2")], [("n", Val.str "3")],
    [("n", Val.str "4")], [("n", Val.str "5")]]

/-- Detail oracle for the C4 witness: exactly the third item throws. -/
def oneThrowDetail : ℕ → DetailOutcome :=
  fun i => if i = 2 then DetailOutcome.throws
    else DetailOutcome.returns [("k", "v")]

/-- Witness for C4: a page of 5 items where exactly 1 detail fetch throws
yields 5 records, 4 flagged successful and 1 flagged failed with empty
attributes. -/
theorem claim_C4_witness :
    (processPageItems fiveItems oneThrowDetail "s" "e").length = fiveItems.length
    ∧ ((processPageItems fiveItems oneThrowDetail "s" "e").filter
        (fun pr => pr.2)).length = 4
    ∧ ((processPageItems fiveItems oneThrowDetail "s" "e").filter
        (fun pr => !pr.2)).length = 1
    ∧ (∀ pr ∈ (processPageItems fiveItems oneThrowDetail "s" "e").filter
        (fun pr => !pr.2),
        dget pr.1 "attributes" = some (Val.dict [])) :=
  ⟨((claim_C4_detail_failure_resilience "s" "e").1 fiveItems oneThrowDetail).1,
    by decide, by decide, by decide⟩

/-- C6 (counterexample): a detail call that succeeds but returns an empty
`resultList` produces a record with empty attributes whose
`detail_success` flag is `true`, not `false` as the claim requires for an
empty result. -/
theorem claim_C6_counterexample :
    dget (processItem [("name", Val.str "x")] (DetailOutcome.returns [])
        "20240101" "20240105").1 "attributes" = some (Val.dict [])
    ∧ ¬ (dget (processItem [("name", Val.str "x")] (DetailOutcome.returns [])
        "20240101" "20240105").1 "detail_success" = some (Val.bool false)) := by
  decide

/-- C6 (amended): `detail_success = false` is attached exactly when the
detail call raises, in which case attributes are empty; a successful call
gets `detail_success = true` with whatever attributes the `resultList`
yields — possibly none. -/
theorem claim_C6_amended_detail_success_flag (item : Dict Val)
    (rl : List (String × String)) (ws we : String) :
    dget (processItem item DetailOutcome.throws ws we).1 "detail_success"
      = some (Val.bool false)
    ∧ dget (processItem item DetailOutcome.throws ws we).1 "attributes"
      = some (Val.dict [])
    ∧ (processItem item DetailOutcome.throws ws we).2 = false
    ∧ dget (processItem item (DetailOutcome.returns rl) ws we).1 "detail_success"
      = some (Val.bool true)
    ∧ dget (processItem item (DetailOutcome.returns rl) ws we).1 "attributes"
      = some (Val.dict (buildAttributes rl))
    ∧ (processItem item (DetailOutcome.returns rl) ws we).2 = true :=
  ⟨dget_mkRecord_detail_success _ _ _ _ _,
    dget_mkRecord_attributes _ _ _ _ _, rfl,
    dget_mkRecord_detail_success _ _ _ _ _,
    dget_mkRecord_attributes _ _ _ _ _, rfl⟩

/-! ### Tabular conversion (`_convert_temp_to_csv`, src/services/crawler.py)

The two-pass conversion is modelled on the already-parsed NDJSON records
(a record is the dict written by `mkRecord`; JSON round-tripping preserves
key order and values).  Pass 1 collects column names, pass 2 renders one
row per record against the resolved header. -/

/-- Code-point lexicographic order on character lists — the order Python
uses to compare strings. -/
def charListLe : List Char → List Char → Bool
  | [], _ => true
  | _ :: _, [] => false
  | a :: as, b :: bs =>
    if a.toNat < b.toNat then true
    else if a.toNat = b.toNat then charListLe as bs
    else false

/-- Python string comparison `a <= b` (code-point lexicographic). -/
def strLe (a b : String) : Bool := charListLe a.data b.data

/-- Insertion into a `strLe`-sorted list of strings. -/
def insertSorted (s : String) : List String → List String
  | [] => [s]
  | t :: ts => if strLe s t then s :: t :: ts else t :: insertSorted s ts

/-- Python `sorted` on strings (code-point lexicographic order). -/
def sortStrings (l : List String) : List String :=
  l.foldr insertSorted []

/-- Pass 1, basic columns: the union of top-level record keys other than
`"attributes"`. -/
def basicKeyList (records : List (Dict Val)) : List String :=
  (records.flatMap (fun r => (r.map Prod.fst).filter
    (fun k => k ≠ "attributes"))).dedup

/-- Pass 1, attribute columns: the union of the keys of each record's
`"attributes"` dict (records without a dict there contribute nothing). -/
def attrKeyList (records : List (Dict Val)) : List String :=
  (records.flatMap (fun r =>
    match dget r "attributes" with
    | some (Val.dict a) => a.map Prod.fst
    | _ => [])).dedup

/-- Python `str()` of a record value as rendered into a CSV cell. -/
def pyStr : Val → String
  | Val.str s => s
  | Val.bool b => if b then "True" else "False"
  | Val.dict a =>
    "\x7b" ++ String.intercalate ", "
      (a.map (fun p => "\x27" ++ p.1 ++ "\x27: \x27" ++ p.2 ++ "\x27"))
      ++ "\x7d"

/-- Simplified `json.dumps` of a string-to-string dict (escaping inside
keys and values is not modelled; no claim depends on it). -/
def jsonDumps (a : Dict String) : String :=
  "\x7b" ++ String.intercalate ", "
    (a.map (fun p => "\"" ++ p.1 ++ "\": \"" ++ p.2 ++ "\""))
    ++ "\x7d"

/-- Python truthiness of an optional record value
(`record.get("detail_success")`). -/
def truthy : Option Val → Bool
  | none => false
  | some (Val.str s) => s ≠ ""
  | some (Val.bool b) => b
  | some (Val.dict a) => !a.isEmpty

/-- The reverse lookup in pass 2: the first record key whose sanitized
form equals the (sanitized) column, defaulting to the column itself. -/
def findOriginalKey (record : Dict Val) (col : String) : String :=
  match record.find? (fun p => sanitize_column_name p.1 = col) with
  | some p => p.1
  | none => col

/-- Sorted-then-optionally-sanitized basic column list of pass 1. -/
def basicColsSorted (records : List (Dict Val)) (sanitize : Bool) : List String :=
  if sanitize then (sortStrings (basicKeyList records)).map sanitize_column_name
  else sortStrings (basicKeyList records)

/-- Sorted-then-optionally-sanitized attribute column list of pass 1. -/
def attrColsSorted (records : List (Dict Val)) (sanitize : Bool) : List String :=
  if sanitize then (sortStrings (attrKeyList records)).map sanitize_column_name
  else sortStrings (attrKeyList records)

/-- The freshly computed header of `_convert_temp_to_csv` (before any
append-mode fallback). -/
def computedHeader (records : List (Dict Val)) (explode sanitize : Bool) :
    List String :=
  if explode then
    basicColsSorted records sanitize
      ++ (attrColsSorted records sanitize).map (fun c => "attr_" ++ c)
  else basicColsSorted records sanitize ++ ["attributes_json"]

/-- `new_cols = set(header) - set(existing_header)`, as a deduplicated
list. -/
def newColumnsOf (records : List (Dict Val)) (existingHeader : List String)
    (explode sanitize : Bool) : List String :=
  ((computedHeader records explode sanitize).filter
    (fun c => !existingHeader.contains c)).dedup

/-- Pass 2 row construction for one record (`row_data` building followed
by `[row_data.get(col, "") for col in header]`). -/
def buildRow (record : Dict Val) (basicCols attrCols : List String)
    (explode sanitize : Bool) (header : List String) : List String :=
  let rowData : Dict String :=
    basicCols.foldl (fun rd col =>
      let origCol := if sanitize then findOriginalKey record col else col
      dinsert rd col (match dget record origCol with
        | some v => pyStr v
        | none => "")) []
  let attributes : Dict String :=
    match dget record "attributes" with
    | some (Val.dict a) => a
    | _ => []
  let rowData :=
    if explode then
      attrCols.foldl (fun rd attrCol =>
        let colName := if sanitize then "attr_" ++ sanitize_column_name attrCol
          else "attr_" ++ attrCol
        dinsert rd colName ((dget attributes attrCol).getD "")) rowData
    else dinsert rowData "attributes_json" (jsonDumps attributes)
  let rowData := dinsert rowData "window_start"
    (pyStr ((dget record "window_start").getD (Val.str "")))
  let rowData := dinsert rowData "window_end"
    (pyStr ((dget record "window_end").getD (Val.str "")))
  let rowData := dinsert rowData "detail_success"
    (if truthy (dget record "detail_success") then "1" else "0")
  header.map (fun col => (dget rowData col).getD "")

/-- Result dict of `_convert_temp_to_csv`: on failure `new_columns` names
the offending columns; on success `header` is the resolved header the
rows were written against and `headerWritten` records whether the file was
opened in `"w"` mode (header row emitted). -/
structure ConvertOut where
  success : Bool
  new_columns : List String
  header : List String
  headerWritten : Bool
  rows : List (List String)
deriving DecidableEq, Repr

/-- Model of `_convert_temp_to_csv`. -/
def convertTempToCsv (records : List (Dict Val))
    (existingHeader : Option (List String))
    (explode sanitize append failOnNewColumns : Bool) : ConvertOut :=
  let basicCols := basicColsSorted records sanitize
  let attrCols := attrColsSorted records sanitize
  let header0 := computedHeader records explode sanitize
  let newCols :=
    match existingHeader with
    | some eh => newColumnsOf records eh explode sanitize
    | none => []
  if newCols ≠ [] ∧ failOnNewColumns then
    { success := false, new_columns := newCols, header := [],
      headerWritten := false, rows := [] }
  else
    let header :=
      match existingHeader with
      | some eh => if newCols ≠ [] then eh else header0
      | none => header0
    { success := true
      new_columns := newCols
      header := header
      headerWritten := !(append && existingHeader.isSome)
      rows := records.map
        (fun r => buildRow r basicCols attrCols explode sanitize header) }

theorem buildRow_length (record : Dict Val) (basicCols attrCols : List String)
    (explode sanitize : Bool) (header : List String) :
    (buildRow record basicCols attrCols explode sanitize header).length
      = header.length := by
  simp [buildRow]

/-- C5: in append mode against an existing header, when the computed
header introduces new columns, `fail_on_new_columns = true` yields a
failure result whose `new_columns` field names exactly the columns of the
computed header absent from the existing one (and writes no rows), while
`fail_on_new_columns = false` yields a success result that falls back to
the existing header, every written row containing exactly one cell per
existing-header column (data of the new columns is omitted). -/
theorem claim_C5_schema_drift (records : List (Dict Val)) (eh : List String)
    (explode san failOnNew : Bool)
    (hnew : newColumnsOf records eh explode san ≠ []) :
    (failOnNew = true →
      (convertTempToCsv records (some eh) explode san true failOnNew).success
        = false
      ∧ (convertTempToCsv records (some eh) explode san true
          failOnNew).new_columns = newColumnsOf records eh explode san
      ∧ (∀ c, c ∈ (convertTempToCsv records (some eh) explode san true
            failOnNew).new_columns
          ↔ (c ∈ computedHeader records explode san ∧ c ∉ eh))
      ∧ (convertTempToCsv records (some eh) explode san true failOnNew).rows = [])
    ∧ (failOnNew = false →
      (convertTempToCsv records (some eh) explode san true failOnNew).success
        = true
      ∧ (convertTempToCsv records (some eh) explode san true failOnNew).header
        = eh
      ∧ (convertTempToCsv records (some eh) explode san true failOnNew).rows
        = records.map (fun r => buildRow r (basicColsSorted records san)
            (attrColsSorted records san) explode san eh)
      ∧ (∀ row ∈ (convertTempToCsv records (some eh) explode san true
            failOnNew).rows, row.length = eh.length)) := by
  constructor
  · intro hT
    subst hT
    simp only [convertTempToCsv]
    rw [if_pos ⟨hnew, by trivial⟩]
    refine ⟨rfl, rfl, ?_, rfl⟩
    intro c
    simp [newColumnsOf, List.mem_dedup, List.mem_filter, List.elem_iff]
  · intro hF
    subst hF
    simp only [convertTempToCsv]
    rw [if_neg (by simp)]
    rw [if_pos hnew]
    refine ⟨rfl, rfl, rfl, ?_⟩
    intro row hrow
    simp only [List.mem_map] at hrow
    obtain ⟨r, -, hr⟩ := hrow
    rw [← hr]
    exact buildRow_length _ _ _ _ _ _

/-- Concrete record introducing column `c` for the C5 witness. -/
def schemaDriftRecord : Dict Val := [("a", Val.str "1"), ("c", Val.str "2")]

/-- Witness for C5 against an existing header `["a", "b"]`: failing mode
reports failure and names `c`; lenient mode succeeds with the existing
header and two-cell rows. -/
theorem claim_C5_witness :
    (convertTempToCsv [schemaDriftRecord] (some ["a", "b"]) false false true
        true).success = false
    ∧ "c" ∈ (convertTempToCsv [schemaDriftRecord] (some ["a", "b"]) false false
        true true).new_columns
    ∧ (convertTempToCsv [schemaDriftRecord] (some ["a", "b"]) false false true
        false).success = true
    ∧ (convertTempToCsv [schemaDriftRecord] (some ["a", "b"]) false false true
        false).header = ["a", "b"]
    ∧ (∀ row ∈ (convertTempToCsv [schemaDriftRecord] (some ["a", "b"]) false
        false true false).rows, row.length = 2) := by
  have hT := (claim_C5_schema_drift [schemaDriftRecord] ["a", "b"] false false
    true (by decide)).1 rfl
  have hF := (claim_C5_schema_drift [schemaDriftRecord] ["a", "b"] false false
    false (by decide)).2 rfl
  refine ⟨hT.1, ?_, hF.1, hF.2.1, hF.2.2.2⟩
  rw [hT.2.1]
  decide

/-- Record whose attribute key `a-b` is altered by sanitization, for C7. -/
def attrLossRecord : Dict Val :=
  [("name", Val.str "prod"), ("attributes", Val.dict [("a-b", "v")]),
    ("window_start", Val.str "20240101"), ("window_end", Val.str "20240105"),
    ("detail_success", Val.bool true)]

/-- C7 (failing input): converting a record with `detail_success = true`
and attributes `{"a-b": "v"}` under `explode_attributes = true` and
`sanitize = true` does emit `detail_success` as `"1"` and a column
`attr_a_b`, but that column holds `""` instead of the original value `"v"`
(the value appears nowhere in the output): pass 2 looks up the sanitized
key `a_b` in the original attributes dict, so any key changed by
sanitization loses its value, contradicting the claim. -/
theorem claim_C7_attr_value_lost_failing_input :
    (convertTempToCsv [attrLossRecord] none true true false true).header
      = ["detail_success", "name", "window_end", "window_start", "attr_a_b"]
    ∧ (convertTempToCsv [attrLossRecord] none true true false true).rows
      = [["1", "prod", "20240105", "20240101", ""]]
    ∧ ¬ "v" ∈ (convertTempToCsv [attrLossRecord] none true true false
        true).rows.flatten := by
  decide

/-- Record pair whose sort order differs before and after sanitization,
for C8. -/
def sortOrderRecord : Dict Val := [("a-b", Val.str "x"), ("a_a", Val.str "y")]

/-- C8 (counterexample): with columns `a-b` and `a_a`, the code produces
header `["a_b", "a_a", "attributes_json"]` — the sanitized names in the
lexicographic order of the ORIGINAL names — whereas sorting after
sanitization (as the claim states) would give
`["a_a", "a_b", "attributes_json"]`. -/
theorem claim_C8_counterexample :
    (convertTempToCsv [sortOrderRecord] none false true false true).header
      = ["a_b", "a_a", "attributes_json"]
    ∧ sortStrings ((basicKeyList [sortOrderRecord]).map sanitize_column_name)
        ++ ["attributes_json"] = ["a_a", "a_b", "attributes_json"]
    ∧ (convertTempToCsv [sortOrderRecord] none false true false true).header
      ≠ sortStrings ((basicKeyList [sortOrderRecord]).map sanitize_column_name)
        ++ ["attributes_json"] := by
  decide

/-- C8 (amended): with `sanitize = true` the resolved header is the
sanitized basic column names in lexicographic order of the ORIGINAL
(pre-sanitization) names — columns are sorted before sanitization, not
after — followed by `attr_`-prefixed sanitized attribute names likewise
ordered by their original names when exploding, or the single
`attributes_json` column otherwise. -/
theorem claim_C8_amended_header_order (records : List (Dict Val))
    (explode : Bool) :
    (convertTempToCsv records none explode true false true).header
      = (sortStrings (basicKeyList records)).map sanitize_column_name
        ++ (if explode then
            (sortStrings (attrKeyList records)).map
              (fun c => "attr_" ++ sanitize_column_name c)
          else ["attributes_json"]) := by
  simp only [convertTempToCsv]
  rw [if_neg (by simp)]
  simp only [computedHeader, basicColsSorted, attrColsSorted, if_pos rfl]
  cases explode with
  | true =>
    simp [List.map_map, Function.comp]
  | false =>
    simp

end Naramarket
